import Mathlib

/-!
Verification development for the DocumentAccessPOC repository.

Shallow embedding conventions:
- Python `bytes` values are `List Nat` (one `Nat` per byte).
- Python `str` values are Lean `String`; `len(s)` is the character count.
- Code that can raise is embedded with `Option`/`Except`; the error
  constructors correspond to the distinct `raise` sites in the source.
- The database (SQLite via SQLModel sessions) is an explicit `DBState`
  record threaded through each operation; the blob store
  (`LocalFileSystem`, config.DOCUMENT_STORE) is an association list from
  path to bytes inside the same record.
- External cryptographic collaborators (PyCryptodome AES-GCM, the
  `cryptography` RSA primitives) are parameters: AES-GCM is any
  `GCMPrim` (CTR keystream plus a tag function over key, nonce and
  ciphertext, which is the structure of GCM), RSA is any `RSAModel`.
  The code in `src/helpers/aes.py` and the models is what is embedded;
  the primitives themselves live outside the repository.
- Timestamp metadata columns (`created_at`, `uploaded_on`) influence no
  claimed behaviour and are omitted from the row records.
-/

namespace DocumentAccessPOC

/-! ### Python string helpers used by helpers/aes.py -/

/-- Test for a hexadecimal digit, as accepted by Python `bytes.fromhex`. -/
def isHexDigitB (c : Char) : Bool :=
  c.isDigit || ('a' ≤ c && c ≤ 'f') || ('A' ≤ c && c ≤ 'F')

/-- Numeric value of a hexadecimal digit. -/
def hexVal (c : Char) : Nat :=
  if c.isDigit then c.toNat - 48
  else if 'a' ≤ c then c.toNat - 87
  else c.toNat - 55

/-- Embedding of Python `bytes.fromhex` on whitespace-free strings: an
even-length string of hex digits decodes pairwise to bytes, anything
else raises (here: `none`). -/
def fromHexChars : List Char → Option (List Nat)
  | [] => some []
  | [_] => none
  | c1 :: c2 :: rest =>
    if isHexDigitB c1 && isHexDigitB c2 then
      (fromHexChars rest).map (fun bs => (16 * hexVal c1 + hexVal c2) :: bs)
    else none

/-- UTF-8 encoding of a single character, the byte sequence produced by
Python `str.encode()`. -/
def utf8Char (c : Char) : List Nat :=
  let n := c.toNat
  if n < 128 then [n]
  else if n < 2048 then [192 + n / 64, 128 + n % 64]
  else if n < 65536 then [224 + n / 4096, 128 + (n / 64) % 64, 128 + n % 64]
  else [240 + n / 262144, 128 + (n / 4096) % 64, 128 + (n / 64) % 64, 128 + n % 64]

/-- Embedding of Python `str.encode()` (UTF-8). -/
def utf8Bytes (s : String) : List Nat :=
  (s.toList.map utf8Char).flatten

/-- Embedding of `AESHelper.try_encode_str` (src/helpers/aes.py lines
32-44).  `hashHex` is the hex digest string returned by
`helpers.utils.hash_text(key).hex` (a uuid3/MD5 based hash, external to
this file's claims, so passed as a parameter).  If the character length
of the key is not 16, 24 or 32 the key is replaced by its hash digest;
the result is then hex-decoded when possible and UTF-8 encoded
otherwise.  Python's final fallthrough returning `None` is unreachable
because `str.encode()` succeeds on every string the repository can
produce. -/
def try_encode_str (hashHex : String → String) (key : String) : Option (List Nat) :=
  let key := if key.length ∈ [16, 24, 32] then key else hashHex key
  match fromHexChars key.toList with
  | some bs => some bs
  | none => some (utf8Bytes key)

/-! ### AES-GCM layer (src/helpers/aes.py) -/

/-- Model of the PyCryptodome AES-GCM primitive used by `AESHelper`.
GCM is counter-mode XOR with a per-position keystream plus an
authentication tag computed from the key, the nonce and the ciphertext;
the fields capture exactly that interface.  `tag_len` records that GCM
tags are 16 bytes, matching the slicing in `AESHelper.decrypt`. -/
structure GCMPrim where
  keystream : List Nat → List Nat → Nat → Nat
  tagOf : List Nat → List Nat → List Nat → List Nat
  tag_len : ∀ key nonce ct, (tagOf key nonce ct).length = 16

/-- Counter-mode XOR of a byte list against a keystream, starting at
stream position `i`. -/
def xorKS (f : Nat → Nat) : Nat → List Nat → List Nat
  | _, [] => []
  | i, b :: bs => (b ^^^ f i) :: xorKS f (i + 1) bs

/-- Model of PyCryptodome `cipher.encrypt_and_digest(data)`: the
ciphertext together with the 16-byte authentication tag. -/
def encrypt_and_digest (P : GCMPrim) (key nonce data : List Nat) : List Nat × List Nat :=
  let ct := xorKS (P.keystream key nonce) 0 data
  (ct, P.tagOf key nonce ct)

/-- Model of PyCryptodome `cipher.decrypt_and_verify(ciphertext, tag)`:
recompute the tag over the received ciphertext and fail (`none`, the
`ValueError` raise) unless it matches the received tag. -/
def decrypt_and_verify (P : GCMPrim) (key nonce ct tag : List Nat) : Option (List Nat) :=
  if P.tagOf key nonce ct = tag then some (xorKS (P.keystream key nonce) 0 ct) else none

/-- Embedding of `AESHelper.encrypt` (src/helpers/aes.py lines 63-71):
returns `cipher.nonce + tag + ciphertext`.  The nonce, generated
randomly by `AES.new`, is made an explicit argument. -/
def AESHelper.encrypt (P : GCMPrim) (key nonce data : List Nat) : List Nat :=
  let p := encrypt_and_digest P key nonce data
  nonce ++ p.2 ++ p.1

/-- Embedding of `AESHelper.decrypt` (src/helpers/aes.py lines 73-84):
slices the input as nonce = bytes 0-15, tag = bytes 16-31, ciphertext =
the rest, then verifies and decrypts. -/
def AESHelper.decrypt (P : GCMPrim) (key encrypted_data : List Nat) : Option (List Nat) :=
  decrypt_and_verify P key (encrypted_data.take 16)
    (encrypted_data.drop 32) ((encrypted_data.drop 16).take 16)

/-! ### Small list and xor lemmas -/

/-- Cancelling an xor mask restores the original byte. -/
theorem xor_mask_cancel (a b : Nat) : (a ^^^ b) ^^^ b = a :=
  Nat.xor_cancel_right b a

/-- Applying the same keystream twice from the same position is the
identity. -/
theorem xorKS_xorKS (f : Nat → Nat) : ∀ (i : Nat) (l : List Nat),
    xorKS f i (xorKS f i l) = l
  | _, [] => rfl
  | i, b :: bs => by
    simp [xorKS, xor_mask_cancel, xorKS_xorKS f (i + 1) bs]

/-- Counter-mode XOR preserves length. -/
theorem xorKS_length (f : Nat → Nat) : ∀ (i : Nat) (l : List Nat),
    (xorKS f i l).length = l.length
  | _, [] => rfl
  | i, _ :: bs => by simp [xorKS, xorKS_length f (i + 1) bs]

/-- Taking the full length of the left part of an append returns it. -/
theorem take_len_append (l1 l2 : List Nat) (n : Nat) (h : l1.length = n) :
    (l1 ++ l2).take n = l1 := by
  subst h; exact List.take_left l1 l2

/-- Dropping the full length of the left part of an append removes it. -/
theorem drop_len_append (l1 l2 : List Nat) (n : Nat) (h : l1.length = n) :
    (l1 ++ l2).drop n = l2 := by
  subst h; exact List.drop_left l1 l2

/-- Replacing a list entry by a different value yields a different list. -/
theorem set_ne_of_getD (l : List Nat) (i b' : Nat) (hi : i < l.length)
    (hb : b' ≠ l.getD i 0) : l.set i b' ≠ l := by
  intro h
  apply hb
  have h2 := congrArg (fun t : List Nat => t.getD i 0) h
  simpa [List.getD_eq_getElem?_getD, List.getElem?_set_self hi] using h2

/-- Parsing the output of `AESHelper.encrypt` recovers the nonce, the tag
and the ciphertext, provided the nonce is the 16 bytes GCM generates. -/
theorem encrypt_parse (P : GCMPrim) (key nonce data : List Nat) (hn : nonce.length = 16) :
    (AESHelper.encrypt P key nonce data).take 16 = nonce ∧
    ((AESHelper.encrypt P key nonce data).drop 16).take 16 =
      P.tagOf key nonce (xorKS (P.keystream key nonce) 0 data) ∧
    (AESHelper.encrypt P key nonce data).drop 32 =
      xorKS (P.keystream key nonce) 0 data := by
  have ht := P.tag_len key nonce (xorKS (P.keystream key nonce) 0 data)
  simp only [AESHelper.encrypt, encrypt_and_digest, List.append_assoc]
  refine ⟨take_len_append _ _ _ hn, ?_, ?_⟩
  · rw [drop_len_append _ _ _ hn, take_len_append _ _ _ ht]
  · rw [← List.append_assoc]
    exact drop_len_append _ _ _ (by simp [hn, ht])

/-- C8: for every key, every 16-byte nonce and every plaintext, the
`AESHelper` round trip `decrypt(key, encrypt(key, plaintext))` returns
the plaintext, with the output laid out as nonce(16) || tag(16) ||
ciphertext and `decrypt` parsing exactly that layout. -/
theorem aes_roundtrip (P : GCMPrim) (key nonce data : List Nat) (hn : nonce.length = 16) :
    AESHelper.decrypt P key (AESHelper.encrypt P key nonce data) = some data := by
  obtain ⟨h1, h2, h3⟩ := encrypt_parse P key nonce data hn
  simp [AESHelper.decrypt, h1, h2, h3, decrypt_and_verify, xorKS_xorKS]

/-- Concrete GCM primitive used by the witnesses: zero keystream and a
tag that mixes key, nonce and ciphertext bytes positionwise. -/
def P0 : GCMPrim where
  keystream := fun _ _ _ => 0
  tagOf := fun key nonce ct =>
    (List.range 16).map (fun i => key.getD i 0 ^^^ nonce.getD i 0 ^^^ ct.getD i 0)
  tag_len := by intro key nonce ct; simp

/-- Fixed 16-byte nonce used by the witnesses. -/
def nonce0 : List Nat := [7, 8, 9, 10, 11, 12, 13, 14, 15, 16, 17, 18, 19, 20, 21, 22]

/-- Witness for C8 at a concrete key, nonce and plaintext. -/
theorem aes_roundtrip_witness :
    nonce0.length = 16 ∧
    AESHelper.decrypt P0 [1, 2] (AESHelper.encrypt P0 [1, 2] nonce0 [10, 20, 30]) =
      some [10, 20, 30] :=
  ⟨by decide, aes_roundtrip P0 [1, 2] nonce0 [10, 20, 30] (by decide)⟩

/-- Entry `i < 16` of the `P0` tag. -/
theorem P0_tag_getD (key nonce ct : List Nat) (i : Nat) (hi : i < 16) :
    (P0.tagOf key nonce ct).getD i 0 = key.getD i 0 ^^^ nonce.getD i 0 ^^^ ct.getD i 0 := by
  simp [P0, List.getD_eq_getElem?_getD, List.getElem?_map, List.getElem?_range hi]

/-- The `P0` tag is sensitive to every single-byte change of the nonce. -/
theorem P0_tag_nonce_sensitive (key nonce ct : List Nat) (hn : nonce.length = 16) :
    ∀ i b', i < 16 → b' ≠ nonce.getD i 0 →
      P0.tagOf key (nonce.set i b') ct ≠ P0.tagOf key nonce ct := by
  intro i b' hi hb heq
  apply hb
  have h2 := congrArg (fun t : List Nat => t.getD i 0) heq
  simp only [P0_tag_getD _ _ _ _ hi] at h2
  have hset : (nonce.set i b').getD i 0 = b' := by
    simp [List.getD_eq_getElem?_getD, List.getElem?_set_self (by rw [hn]; exact hi)]
  rw [hset] at h2
  exact Nat.xor_right_inj.mp (Nat.xor_left_inj.mp h2)

/-- The `P0` tag is sensitive to every single-byte change of a
ciphertext of at most 16 bytes. -/
theorem P0_tag_ct_sensitive (key nonce ct : List Nat) (hlen : ct.length ≤ 16) :
    ∀ i b', i < ct.length → b' ≠ ct.getD i 0 →
      P0.tagOf key nonce (ct.set i b') ≠ P0.tagOf key nonce ct := by
  intro i b' hi hb heq
  apply hb
  have h2 := congrArg (fun t : List Nat => t.getD i 0) heq
  simp only [P0_tag_getD _ _ _ _ (lt_of_lt_of_le hi hlen)] at h2
  have hset : (ct.set i b').getD i 0 = b' := by
    simp [List.getD_eq_getElem?_getD, List.getElem?_set_self hi]
  rw [hset] at h2
  exact Nat.xor_right_inj.mp h2

/-! ### Data model (src/models/user.py, src/models/document.py) -/

/-- Model of the RSA helper (src/helpers/rsa.py), an external
`cryptography`-library collaborator.  `wrap` is `RSA.encrypt_data(data,
public_key)` for one draw of the OAEP randomness; `unwrap` is
`RSA.decrypt_data(ciphertext, private_key)` with `none` standing for the
decryption failure raise; `verifyKeyPair` is `RSA.verify_key_pair`
applied to the decoded private-key bytes and the stored public key
string. -/
structure RSAModel where
  wrap : List Nat → String → List Nat
  unwrap : List Nat → List Nat → Option (List Nat)
  verifyKeyPair : List Nat → String → Bool

/-- Row of the `user` table (src/models/user.py, class User); the
`encrypted_private_key` column stores hex text and is modelled by its
decoded bytes.  Profile metadata columns are omitted. -/
structure User where
  id : String
  public_key : String
  encrypted_private_key : List Nat
deriving DecidableEq

/-- Row of the `sharedkeyregistry` table (src/models/document.py, class
SharedKeyRegistry), composite primary key `(user_id, document_id)`. -/
structure SharedKeyRegistry where
  user_id : String
  document_id : String
  shared_key : List Nat
deriving DecidableEq

/-- Row of the `document` table (src/models/document.py, class
Document). -/
structure Document where
  id : String
  filepath : String
  owner_id : String
  hash : String
deriving DecidableEq

/-- Combined persistent state: the three SQL tables plus the
`DOCUMENT_STORE` byte store (path to content bytes). -/
structure DBState where
  users : List User
  documents : List Document
  registry : List SharedKeyRegistry
  store : List (String × List Nat)
deriving DecidableEq

/-- Embedding of `DocumentShareResponse` (src/models/document.py). -/
structure DocumentShareResponse where
  id : String
  filepath : String
  owner_id : String
  shared_with : List String
  not_shared_with : List String
deriving DecidableEq

/-- Embedding of `DocumentDownloadResponse` (src/models/document.py). -/
structure DocumentDownloadResponse where
  filepath : String
  owner_id : String
  content : List Nat
deriving DecidableEq

/-- Distinct raise sites of the embedded operations, one constructor per
`raise`/exception source. -/
inductive DocError where
  | accessDenied : String → String → DocError
  | invalidKey : String → DocError
  | cannotRevokeOwner : DocError
  | ownerNotFound : String → DocError
  | fileNotFound : String → DocError
  | corruptContent : DocError
  | valueError : DocError
deriving DecidableEq

/-- Embedding of `LocalFileSystem.read`: `none` is the
`FileNotFoundError` raise. -/
def storeRead (store : List (String × List Nat)) (key : String) : Option (List Nat) :=
  (store.find? (fun kv => kv.1 == key)).map (fun kv => kv.2)

/-- Embedding of `LocalFileSystem.write` (open-truncate semantics). -/
def storeWrite (store : List (String × List Nat)) (key : String) (data : List Nat) :
    List (String × List Nat) :=
  (store.filter (fun kv => !(kv.1 == key))) ++ [(key, data)]

/-- Embedding of `LocalFileSystem.delete` (`unlink(missing_ok=True)`). -/
def storeDeleteKey (store : List (String × List Nat)) (key : String) :
    List (String × List Nat) :=
  store.filter (fun kv => !(kv.1 == key))

/-- Embedding of `User.get_by_id` / `SQLModelWithID.get_by_id` on the
user table. -/
def getUserById (st : DBState) (uid : String) : Option User :=
  st.users.find? (fun u => u.id == uid)

/-- Embedding of `Document.get_by_id`. -/
def getDocById (st : DBState) (did : String) : Option Document :=
  st.documents.find? (fun d => d.id == did)

/-- Registry rows selected by `document_id == did and user_id == uid`,
in table order, as in `Document.get_dek`. -/
def regRowsFor (st : DBState) (did uid : String) : List SharedKeyRegistry :=
  st.registry.filter (fun r => r.document_id == did && r.user_id == uid)

/-- True when a row with the composite primary key `(uid, did)` already
exists, which makes an INSERT fail with an IntegrityError. -/
def regKeyTaken (reg : List SharedKeyRegistry) (uid did : String) : Bool :=
  reg.any (fun r => r.user_id == uid && r.document_id == did)

/-- Embedding of `SQLModel.create` for a freshly constructed
`SharedKeyRegistry` row: `Session.add` plus commit INSERTs the row and
fails (`none`) when the primary key is already present. -/
def SharedKeyRegistry.create (reg : List SharedKeyRegistry) (r : SharedKeyRegistry) :
    Option (List SharedKeyRegistry) :=
  if regKeyTaken reg r.user_id r.document_id then none else some (reg ++ [r])

/-- Embedding of `SQLModel.upsert` (src/models/base.py lines 29-36) as
invoked by `Document.update_shared_keys_registry` on freshly constructed
rows: `update()` on a transient instance is `Session.add` + commit,
i.e. an INSERT, so the try/except ladder attempts the same INSERT twice
and on the second failure swallows the exception (only printing), leaving
the table untouched.  The total return type records that no exception
ever escapes. -/
def SQLModel.upsert (reg : List SharedKeyRegistry) (r : SharedKeyRegistry) :
    List SharedKeyRegistry :=
  match SharedKeyRegistry.create reg r with
  | some reg2 => reg2
  | none =>
    match SharedKeyRegistry.create reg r with
    | some reg2 => reg2
    | none => reg

/-- Embedding of `Document.local_path` (src/models/document.py lines
133-135). -/
def Document.local_path (doc : Document) : String :=
  doc.id ++ ".bin"

/-- Embedding of the `Document.shared_with` property: the user ids of
all registry rows for the document, in table order. -/
def sharedWith (st : DBState) (did : String) : List String :=
  (st.registry.filter (fun r => r.document_id == did)).map (fun r => r.user_id)

/-- Embedding of `Document._to_share_response`.  Python computes
`not_shared_with` as a set difference; it is modelled as a deduplicated
filtered list (no claim depends on its ordering). -/
def Document.to_share_response (st : DBState) (doc : Document) (user_ids : List String) :
    DocumentShareResponse :=
  { id := doc.id
    filepath := doc.filepath
    owner_id := doc.owner_id
    shared_with := sharedWith st doc.id
    not_shared_with := (user_ids.filter (fun u => !(sharedWith st doc.id).contains u)).eraseDups }

/-- Embedding of `Document.update_shared_keys_registry` (lines 143-166):
wrap the DEK for every id in `user_ids` that resolves to an existing
user (ids `User.get_id_obj_map` cannot resolve are silently skipped) and
upsert one registry row per user. -/
def Document.update_shared_keys_registry (R : RSAModel) (st : DBState) (did : String)
    (user_ids : List String) (dek : List Nat) : DBState :=
  let users := st.users.filter (fun u => user_ids.contains u.id)
  { st with
    registry := users.foldl
      (fun reg u =>
        SQLModel.upsert reg
          { user_id := u.id, document_id := did, shared_key := R.wrap dek u.public_key })
      st.registry }

/-- Embedding of `Document.get_dek` (lines 168-196): select the registry
rows for `(document_id, user_id)`; raise the not-shared `ValueError`
(`accessDenied`) when none exist, otherwise unwrap the last row's key
and turn any unwrap failure into the invalid-private-key `ValueError`
(`invalidKey`). -/
def Document.get_dek (R : RSAModel) (st : DBState) (did uid : String) (priv : List Nat) :
    Except DocError (List Nat) :=
  match (regRowsFor st did uid).getLast? with
  | none => .error (.accessDenied did uid)
  | some row =>
    match R.unwrap row.shared_key priv with
    | some dek => .ok dek
    | none => .error (.invalidKey uid)

/-- Embedding of `Document.download` (lines 262-269): recover the DEK,
read the ciphertext from the byte store at `local_path`, AES-decrypt it. -/
def Document.download (R : RSAModel) (P : GCMPrim) (st : DBState) (doc : Document)
    (uid : String) (priv : List Nat) : Except DocError DocumentDownloadResponse :=
  match Document.get_dek R st doc.id uid priv with
  | .error e => .error e
  | .ok dek =>
    match storeRead st.store doc.local_path with
    | none => .error (.fileNotFound doc.local_path)
    | some content =>
      match AESHelper.decrypt P dek content with
      | none => .error .corruptContent
      | some pt => .ok { filepath := doc.filepath, owner_id := doc.owner_id, content := pt }

/-- Embedding of `Document.revoke_access` (lines 243-260).  The pair
returned is the state after the call together with its outcome; on every
error path the state is returned exactly as it was when the exception
was raised (the owner check precedes the deletion loop in the source). -/
def Document.revoke_access (R : RSAModel) (st : DBState) (doc : Document)
    (user_ids : List String) (owner_private_key : List Nat) :
    DBState × Except DocError DocumentShareResponse :=
  match Document.get_dek R st doc.id doc.owner_id owner_private_key with
  | .error e => (st, .error e)
  | .ok _ =>
    if user_ids.contains doc.owner_id then (st, .error .cannotRevokeOwner)
    else
      let st2 := { st with
        registry := st.registry.filter
          (fun r => !(r.document_id == doc.id && user_ids.contains r.user_id)) }
      (st2, .ok (Document.to_share_response st2 doc user_ids))

/-- Embedding of `Document.delete` (lines 271-287): delete
`DOCUMENT_STORE` content at `self.filepath`, then every registry row of
the document, then the document row itself. -/
def Document.delete (st : DBState) (doc : Document) : DBState :=
  let st1 := { st with store := storeDeleteKey st.store doc.filepath }
  let st2 := { st1 with
    registry := st1.registry.filter (fun r => !(r.document_id == doc.id)) }
  { st2 with documents := st2.documents.filter (fun d => !(d.id == doc.id)) }

/-- Embedding of `Document.upload` (lines 212-236).  `hashHex` models
`helpers.utils.hash_text(text).hex` and `fileHash` models
`helpers.utils.hash_file(content, return_type=str)`; both are
deterministic digest functions supplied as parameters.  The random DEK
and the GCM nonce are explicit arguments. -/
def Document.upload (R : RSAModel) (P : GCMPrim) (hashHex : String → String)
    (fileHash : List Nat → String) (st : DBState) (owner_id filepath : String)
    (content : List Nat) (share_with : List String) (dek nonce : List Nat) :
    Except DocError (DBState × DocumentShareResponse) :=
  if (getUserById st owner_id).isNone then .error (.ownerNotFound owner_id)
  else
    let file_hash := fileHash content
    let doc_id := hashHex (owner_id ++ "-" ++ filepath ++ "-" ++ file_hash)
    match getDocById st doc_id with
    | some record => .ok (st, Document.to_share_response st record share_with)
    | none =>
      let encrypted_content := AESHelper.encrypt P dek nonce content
      let doc : Document :=
        { id := doc_id, filepath := filepath, owner_id := owner_id, hash := file_hash }
      let st1 := { st with documents := st.documents ++ [doc] }
      let st2 := Document.update_shared_keys_registry R st1 doc_id
        (owner_id :: share_with) dek
      let st3 := { st2 with
        store := storeWrite st2.store doc.local_path encrypted_content }
      .ok (st3, Document.to_share_response st3 doc share_with)

/-- Embedding of `User.get_private_key` (src/models/user.py line
103-104): derive the AES key from the password via `try_encode_str`
(the `AESHelper` constructor) and decrypt the stored encrypted private
key; `none` is the propagated decryption exception. -/
def User.get_private_key (P : GCMPrim) (hashHex : String → String) (user : User)
    (password : String) : Option (List Nat) :=
  match try_encode_str hashHex password with
  | none => none
  | some k => AESHelper.decrypt P k user.encrypted_private_key

/-- Embedding of `User.verify_private_key` (lines 106-108): any
exception in `get_private_key` propagates to the caller; only when
decryption succeeds is `verify_key_pair` consulted for a boolean. -/
def User.verify_private_key (R : RSAModel) (P : GCMPrim) (hashHex : String → String)
    (user : User) (password : String) : Except DocError Bool :=
  match User.get_private_key P hashHex user password with
  | none => .error .valueError
  | some pk => .ok (R.verifyKeyPair pk user.public_key)

/-- Embedding of `User.verify_password` (lines 110-111), a direct
delegation to `verify_private_key`. -/
def User.verify_password (R : RSAModel) (P : GCMPrim) (hashHex : String → String)
    (user : User) (password : String) : Except DocError Bool :=
  User.verify_private_key R P hashHex user password

/-! ### Shared concrete instances for witnesses -/

deriving instance DecidableEq for Except

/-- Transparent RSA model for witnesses: wrapping is the identity on the
data and unwrapping always succeeds. -/
def R0 : RSAModel where
  wrap := fun d _ => d
  unwrap := fun c _ => some c
  verifyKeyPair := fun _ _ => true

/-- RSA model whose unwrap always fails, exercising invalid-key paths. -/
def Rnone : RSAModel where
  wrap := fun d _ => d
  unwrap := fun _ _ => none
  verifyKeyPair := fun _ _ => false

/-! ### Claim theorems -/

/-- C10: the persistence-layer upsert never propagates an exception (it
is a total function into the table state): when the row's primary key is
free the INSERT of the update attempt succeeds, and when the key is
already taken both INSERT attempts fail and the failure is swallowed, so
the call returns with no row written. -/
theorem upsert_never_raises (reg : List SharedKeyRegistry) (r : SharedKeyRegistry) :
    (regKeyTaken reg r.user_id r.document_id = true → SQLModel.upsert reg r = reg) ∧
    (regKeyTaken reg r.user_id r.document_id = false →
      SQLModel.upsert reg r = reg ++ [r]) := by
  constructor <;> intro h <;> simp [SQLModel.upsert, SharedKeyRegistry.create, h]

/-- Witness for C10: both branches at concrete registries. -/
theorem upsert_never_raises_witness :
    (regKeyTaken [⟨"u1", "d1", [1]⟩] "u1" "d1" = true ∧
      SQLModel.upsert [⟨"u1", "d1", [1]⟩] ⟨"u1", "d1", [2]⟩ = [⟨"u1", "d1", [1]⟩]) ∧
    (regKeyTaken [] "u1" "d1" = false ∧
      SQLModel.upsert [] ⟨"u1", "d1", [2]⟩ = [⟨"u1", "d1", [2]⟩]) :=
  ⟨⟨by decide, (upsert_never_raises [⟨"u1", "d1", [1]⟩] ⟨"u1", "d1", [2]⟩).1 (by decide)⟩,
   ⟨by decide, (upsert_never_raises [] ⟨"u1", "d1", [2]⟩).2 (by decide)⟩⟩

/-- Sample state for C2: user `u1` exists and already holds a registry
row for document `d1` wrapping the old key `[1]`. -/
def stC2 : DBState where
  users := [{ id := "u1", public_key := "PK", encrypted_private_key := [] }]
  documents := []
  registry := [⟨"u1", "d1", [1]⟩]
  store := []

/-- C2 (code bug, evaluated at the failing input): upserting a new
wrapped key `[2]` for the pair `(d1, u1)` that already has a row leaves
the old row holding the old key `[1]` — the update attempt INSERTs a
transient instance, both INSERTs hit the existing primary key and fail,
the error is swallowed, and the newly supplied wrapped key is never
stored.  The same happens through
`Document.update_shared_keys_registry`, which wraps the fresh DEK `[9]`
and upserts it: the state is unchanged. -/
theorem upsert_keeps_old_key_c2 :
    SQLModel.upsert [⟨"u1", "d1", [1]⟩] ⟨"u1", "d1", [2]⟩ = [⟨"u1", "d1", [1]⟩] ∧
    Document.update_shared_keys_registry R0 stC2 "d1" ["u1"] [9] = stC2 := by
  decide

/-- Sample document for C1: note that `filepath` differs from
`local_path`, which is `id ++ ".bin"`. -/
def docC1 : Document :=
  { id := "d1", filepath := "report.pdf", owner_id := "u1", hash := "H" }

/-- Sample state for C1: the ciphertext was written (by upload) under
`docC1.local_path`, i.e. the key `d1.bin` of the byte store. -/
def stC1 : DBState where
  users := [{ id := "u1", public_key := "PK", encrypted_private_key := [] }]
  documents := [docC1]
  registry := [⟨"u1", "d1", [1]⟩, ⟨"u2", "d1", [2]⟩]
  store := [("d1.bin", [9, 9, 9])]

/-- C1 (code bug, evaluated at the failing input): delete removes the
document record (a get by id is then not-found) and every registry row,
but calls the byte-store delete with `self.filepath` instead of
`self.local_path`, the key content was written under — the store is
untouched and still holds the ciphertext under the document's storage
key `d1.bin`. -/
theorem delete_misses_ciphertext_c1 :
    getDocById (Document.delete stC1 docC1) "d1" = none ∧
    (Document.delete stC1 docC1).registry = [] ∧
    (Document.delete stC1 docC1).store = stC1.store ∧
    storeRead (Document.delete stC1 docC1).store docC1.local_path = some [9, 9, 9] := by
  decide

/-- C3: download fails with the access-denied error when no registry row
exists for `(document.id, requester_id)`, and when a row exists but the
supplied private key cannot unwrap its stored wrapped key it fails with
the invalid-key error; in both cases the result is an error, so no
plaintext (corrupted or otherwise) is returned. -/
theorem download_error_paths (R : RSAModel) (P : GCMPrim) (st : DBState) (doc : Document)
    (uid : String) (priv : List Nat) :
    (regRowsFor st doc.id uid = [] →
      Document.download R P st doc uid priv = .error (.accessDenied doc.id uid)) ∧
    (∀ row, (regRowsFor st doc.id uid).getLast? = some row →
      R.unwrap row.shared_key priv = none →
      Document.download R P st doc uid priv = .error (.invalidKey uid)) := by
  constructor
  · intro h
    simp [Document.download, Document.get_dek, h]
  · intro row h1 h2
    simp [Document.download, Document.get_dek, h1, h2]

/-- Sample document and state for the C3 witness: `d1` is shared with
`u2` only. -/
def docC3 : Document :=
  { id := "d1", filepath := "f.txt", owner_id := "u1", hash := "H" }

/-- State for the C3 witness. -/
def stC3 : DBState where
  users := []
  documents := [docC3]
  registry := [⟨"u2", "d1", [5]⟩]
  store := []

/-- Witness for C3: requester `u3` has no row and is denied; requester
`u2` has a row but a key that cannot unwrap it and gets the invalid-key
error. -/
theorem download_error_paths_witness :
    Document.download Rnone P0 stC3 docC3 "u3" [] = .error (.accessDenied "d1" "u3") ∧
    Document.download Rnone P0 stC3 docC3 "u2" [] = .error (.invalidKey "u2") :=
  ⟨(download_error_paths Rnone P0 stC3 docC3 "u3" []).1 (by decide),
   (download_error_paths Rnone P0 stC3 docC3 "u2" []).2 ⟨"u2", "d1", [5]⟩ (by decide) rfl⟩

/-- C7: when the owner-unwrap authorization step succeeds and the revoke
list contains the owner's own id, revoke_access fails with the
cannot-revoke-owner conflict error and the returned state is exactly the
input state: the check precedes the deletion loop, so no registry row is
deleted before the error is raised. -/
theorem revoke_owner_conflict (R : RSAModel) (st : DBState) (doc : Document)
    (user_ids : List String) (priv dek : List Nat)
    (hdek : Document.get_dek R st doc.id doc.owner_id priv = .ok dek)
    (hmem : doc.owner_id ∈ user_ids) :
    Document.revoke_access R st doc user_ids priv = (st, .error .cannotRevokeOwner) := by
  have hc : user_ids.contains doc.owner_id = true := by
    simpa [List.elem_iff] using hmem
  simp [Document.revoke_access, hdek, hc, hmem]

/-- Sample document and state for the C7 witness. -/
def docC7 : Document :=
  { id := "d1", filepath := "f.txt", owner_id := "u1", hash := "H" }

/-- State for the C7 witness: owner `u1` and recipient `u2` hold rows. -/
def stC7 : DBState where
  users := []
  documents := [docC7]
  registry := [⟨"u1", "d1", [1]⟩, ⟨"u2", "d1", [2]⟩]
  store := []

/-- Witness for C7: revoking `[u2, u1]` (which contains the owner) with
a key that unwraps the owner's row fails with the conflict error and
leaves the state unchanged. -/
theorem revoke_owner_conflict_witness :
    Document.revoke_access R0 stC7 docC7 ["u2", "u1"] [] =
      (stC7, .error .cannotRevokeOwner) :=
  revoke_owner_conflict R0 stC7 docC7 ["u2", "u1"] [] [1] (by decide) (by decide)

/-- Sample user for C4: the private-key bytes `[5, 6]` are AES-GCM
encrypted under the credential "passwordpassword". -/
def userC4 : User where
  id := "u1"
  public_key := "PK"
  encrypted_private_key := AESHelper.encrypt P0 (utf8Bytes "passwordpassword") nonce0 [5, 6]

/-- C4 (code bug, evaluated at the failing input): verify_password with
the correct credential returns the boolean true, but with a wrong
credential the AES-GCM tag verification failure inside get_private_key
propagates as an exception instead of the documented boolean false. -/
theorem verify_password_raises_c4 :
    User.verify_password R0 P0 (fun s => s) userC4 "passwordpassword" = .ok true ∧
    User.verify_password R0 P0 (fun s => s) userC4 "wrongwrongwrongw" =
      .error .valueError := by
  decide

/-- C6 (code bug, evaluated at the failing input): the 16-character key
string "0123456789abcdef" has an allowed length, so it bypasses the hash
normalization, but it consists of hex digits, so `bytes.fromhex`
succeeds and yields an 8-byte key — not one of the valid AES key lengths
16, 24 or 32 (the subsequent `AES.new` call rejects it).  The result is
independent of the hash function. -/
theorem try_encode_str_bad_length_c6 (hashHex : String → String) :
    (try_encode_str hashHex "0123456789abcdef").map List.length = some 8 := by
  rfl

/-- A get-by-id hit returns a document whose id is the queried id. -/
theorem getDocById_id (st : DBState) (did : String) (doc : Document)
    (h : getDocById st did = some doc) : doc.id = did := by
  have h2 := List.find?_some h
  simpa using h2

/-- C5: upload is idempotent on `(owner_id, filepath, content)`: after
any successful upload, a second upload of the same triple (with any
recipient list and any fresh DEK and nonce) is answered from the
deterministically derived document id — it returns the state exactly
unchanged (so no registry row and no ciphertext is created) together
with the existing document's sharing state, carrying the same document
id as the first upload returned. -/
theorem upload_idempotent (R : RSAModel) (P : GCMPrim) (hashHex : String → String)
    (fileHash : List Nat → String) (st st1 : DBState) (owner_id filepath : String)
    (content : List Nat) (sw1 sw2 : List String) (dek1 nonce1 dek2 nonce2 : List Nat)
    (r1 : DocumentShareResponse)
    (h1 : Document.upload R P hashHex fileHash st owner_id filepath content sw1 dek1 nonce1
      = .ok (st1, r1)) :
    ∃ r2,
      Document.upload R P hashHex fileHash st1 owner_id filepath content sw2 dek2 nonce2
        = .ok (st1, r2) ∧ r2.id = r1.id := by
  simp only [Document.upload] at h1 ⊢
  by_cases hu : (getUserById st owner_id).isNone
  · rw [if_pos hu] at h1
    exact absurd h1 (by simp)
  · rw [if_neg hu] at h1
    cases hdoc : getDocById st (hashHex (owner_id ++ "-" ++ filepath ++ "-" ++ fileHash content)) with
    | some record =>
      rw [hdoc] at h1
      simp only [Except.ok.injEq, Prod.mk.injEq] at h1
      obtain ⟨hst, hr⟩ := h1
      subst hst
      rw [if_neg hu, hdoc]
      exact ⟨Document.to_share_response st record sw2, rfl,
        by rw [← hr]; simp [Document.to_share_response]⟩
    | none =>
      rw [hdoc] at h1
      simp only [Except.ok.injEq, Prod.mk.injEq] at h1
      obtain ⟨hst, hr⟩ := h1
      have husers : st1.users = st.users := by
        rw [← hst]; simp [Document.update_shared_keys_registry]
      have hdocs : st1.documents = st.documents ++
          [{ id := hashHex (owner_id ++ "-" ++ filepath ++ "-" ++ fileHash content),
             filepath := filepath, owner_id := owner_id,
             hash := fileHash content }] := by
        rw [← hst]; simp [Document.update_shared_keys_registry]
      have hu1 : (getUserById st1 owner_id).isNone = false := by
        simp only [getUserById, husers]
        simpa [getUserById] using hu
      have hdoc1 : getDocById st1
          (hashHex (owner_id ++ "-" ++ filepath ++ "-" ++ fileHash content)) =
          some { id := hashHex (owner_id ++ "-" ++ filepath ++ "-" ++ fileHash content),
                 filepath := filepath, owner_id := owner_id, hash := fileHash content } := by
        simp only [getDocById, hdocs, List.find?_append]
        have hnone : st.documents.find?
            (fun d => d.id == hashHex (owner_id ++ "-" ++ filepath ++ "-" ++ fileHash content))
            = none := hdoc
        rw [hnone]
        simp
      rw [if_neg (by simp [hu1]), hdoc1]
      refine ⟨_, rfl, ?_⟩
      rw [← hr]
      simp [Document.to_share_response]

/-- Initial state for the C5 witness: only the owner `u1` exists. -/
def stC5 : DBState where
  users := [{ id := "u1", public_key := "PK", encrypted_private_key := [] }]
  documents := []
  registry := []
  store := []

/-- Document row created by the first upload of the C5 witness. -/
def docC5 : Document :=
  { id := "D", filepath := "f", owner_id := "u1", hash := "H" }

/-- State after the first upload of the C5 witness. -/
def stC5b : DBState where
  users := [{ id := "u1", public_key := "PK", encrypted_private_key := [] }]
  documents := [docC5]
  registry := [⟨"u1", "D", [2]⟩]
  store := [("D.bin", AESHelper.encrypt P0 [2] nonce0 [3])]

/-- Share response returned by the first upload of the C5 witness. -/
def rC5 : DocumentShareResponse :=
  { id := "D", filepath := "f", owner_id := "u1",
    shared_with := ["u1"], not_shared_with := [] }

/-- Witness for C5: a concrete first upload succeeds, and re-uploading
the same (owner, filepath, content) triple with a different recipient
list, DEK and nonce returns the unchanged state and the same id. -/
theorem upload_idempotent_witness :
    Document.upload R0 P0 (fun _ => "D") (fun _ => "H") stC5 "u1" "f" [3] [] [2] nonce0
      = .ok (stC5b, rC5) ∧
    ∃ r2,
      Document.upload R0 P0 (fun _ => "D") (fun _ => "H") stC5b "u1" "f" [3] ["u9"] [4] nonce0
        = .ok (stC5b, r2) ∧ r2.id = rC5.id :=
  ⟨by decide,
   upload_idempotent R0 P0 (fun _ => "D") (fun _ => "H") stC5 stC5b "u1" "f" [3]
     [] ["u9"] [2] nonce0 [4] nonce0 rC5 (by decide)⟩

/-- Ciphertext half of the GCM encryption, as produced inside
`encrypt_and_digest`. -/
def gcmCT (P : GCMPrim) (key nonce data : List Nat) : List Nat :=
  xorKS (P.keystream key nonce) 0 data

/-- Tag half of the GCM encryption, as produced inside
`encrypt_and_digest`. -/
def gcmTag (P : GCMPrim) (key nonce data : List Nat) : List Nat :=
  P.tagOf key nonce (gcmCT P key nonce data)

/-- The encrypt output is literally nonce, tag and ciphertext appended. -/
theorem encrypt_eq_parts (P : GCMPrim) (key nonce data : List Nat) :
    AESHelper.encrypt P key nonce data =
      (nonce ++ gcmTag P key nonce data) ++ gcmCT P key nonce data := rfl

/-- Decrypting any 16-16-rest concatenation parses it back into its
three parts. -/
theorem decrypt_parts (P : GCMPrim) (key n t c : List Nat) (hn : n.length = 16)
    (ht : t.length = 16) :
    AESHelper.decrypt P key ((n ++ t) ++ c) = decrypt_and_verify P key n c t := by
  have h1 : ((n ++ t) ++ c).take 16 = n := by
    rw [List.append_assoc]; exact take_len_append _ _ _ hn
  have h2 : (((n ++ t) ++ c).drop 16).take 16 = t := by
    rw [List.append_assoc, drop_len_append _ _ _ hn]; exact take_len_append _ _ _ ht
  have h3 : ((n ++ t) ++ c).drop 32 = c := drop_len_append _ _ _ (by simp [hn, ht])
  show decrypt_and_verify P key (((n ++ t) ++ c).take 16) (((n ++ t) ++ c).drop 32)
    ((((n ++ t) ++ c).drop 16).take 16) = decrypt_and_verify P key n c t
  rw [h1, h2, h3]

/-- C9: flipping any single byte of an encrypt output — in the nonce,
tag or ciphertext portion — makes decrypt fail (return the
authentication error) rather than produce any plaintext.  The two
hypotheses state the integrity contract of the GCM primitive at this
message: any single-byte change of the nonce or of the ciphertext
changes the authentication tag.  Changes inside the stored tag itself
are detected unconditionally. -/
theorem aes_tamper_detection (P : GCMPrim) (key nonce data : List Nat)
    (hn : nonce.length = 16)
    (hnonce : ∀ i b', i < 16 → b' ≠ nonce.getD i 0 →
      P.tagOf key (nonce.set i b') (gcmCT P key nonce data) ≠
        gcmTag P key nonce data)
    (hct : ∀ i b', i < (gcmCT P key nonce data).length →
      b' ≠ (gcmCT P key nonce data).getD i 0 →
      P.tagOf key nonce ((gcmCT P key nonce data).set i b') ≠
        gcmTag P key nonce data) :
    ∀ i b', i < (AESHelper.encrypt P key nonce data).length →
      b' ≠ (AESHelper.encrypt P key nonce data).getD i 0 →
      AESHelper.decrypt P key ((AESHelper.encrypt P key nonce data).set i b') = none := by
  intro i b' hi hb
  have htl : (gcmTag P key nonce data).length = 16 := P.tag_len key nonce _
  have hctl : (gcmCT P key nonce data).length = data.length := xorKS_length _ 0 data
  have hl32 : (nonce ++ gcmTag P key nonce data).length = 32 := by simp [hn, htl]
  rw [encrypt_eq_parts] at hi hb ⊢
  rcases Nat.lt_or_ge i 16 with h16 | h16
  · -- the flip lands in the nonce portion
    have hiln : i < nonce.length := by rw [hn]; exact h16
    have hbn : b' ≠ nonce.getD i 0 := by
      rw [List.append_assoc, List.getD_append _ _ _ _ hiln] at hb
      exact hb
    rw [List.set_append_left i b' (by rw [hl32]; omega),
      List.set_append_left i b' hiln,
      decrypt_parts P key _ _ _ (by simp [hn]) htl]
    simp only [decrypt_and_verify]
    rw [if_neg (hnonce i b' h16 hbn)]
  · rcases Nat.lt_or_ge i 32 with h32 | h32
    · -- the flip lands in the tag portion
      have hilt : i - 16 < (gcmTag P key nonce data).length := by rw [htl]; omega
      have hbt : b' ≠ (gcmTag P key nonce data).getD (i - 16) 0 := by
        rw [List.append_assoc, List.getD_append_right _ _ _ _ (by rw [hn]; exact h16),
          hn, List.getD_append _ _ _ _ hilt] at hb
        exact hb
      rw [List.set_append_left i b' (by rw [hl32]; omega),
        List.set_append_right i b' (by rw [hn]; exact h16), hn,
        decrypt_parts P key _ _ _ hn (by simp [htl])]
      simp only [decrypt_and_verify]
      rw [if_neg (show P.tagOf key nonce (gcmCT P key nonce data) ≠
        (gcmTag P key nonce data).set (i - 16) b' from
        Ne.symm (set_ne_of_getD _ _ _ hilt hbt))]
    · -- the flip lands in the ciphertext portion
      have hilc : i - 32 < (gcmCT P key nonce data).length := by
        simp only [List.length_append, hl32] at hi
        omega
      have hbc : b' ≠ (gcmCT P key nonce data).getD (i - 32) 0 := by
        rw [List.getD_append_right _ _ _ _ (by rw [hl32]; exact h32), hl32] at hb
        exact hb
      rw [List.set_append_right i b' (by rw [hl32]; exact h32), hl32,
        decrypt_parts P key _ _ _ hn htl]
      simp only [decrypt_and_verify]
      rw [if_neg (hct (i - 32) b' hilc hbc)]

/-- Plaintext used by the C9 witness. -/
def dataC9 : List Nat := [5, 6]

/-- Witness for C9: with the concrete primitive, flipping byte 0 of a
concrete encrypt output (a nonce byte) makes decrypt fail. -/
theorem aes_tamper_detection_witness :
    nonce0.length = 16 ∧
    AESHelper.decrypt P0 [1] ((AESHelper.encrypt P0 [1] nonce0 dataC9).set 0 99) = none :=
  ⟨by decide,
   aes_tamper_detection P0 [1] nonce0 dataC9 (by decide)
     (P0_tag_nonce_sensitive [1] nonce0 (gcmCT P0 [1] nonce0 dataC9) (by decide))
     (P0_tag_ct_sensitive [1] nonce0 (gcmCT P0 [1] nonce0 dataC9) (by decide))
     0 99 (by decide) (by decide)⟩

end DocumentAccessPOC
